import Mathlib

/-!
# shell/browser/api/atom_api_url_loader.cc

A shallow embedding of the request-streaming bridge:

* `BufferDataSource`: the byte source handed to the mojo data pipe producer;
* `JSChunkedDataPipeGetter`: the chunked upload bridge (`write` / `done`);
* `SimpleURLLoaderWrapper`: the request wrapper and the events it emits.

Bytes (`char`) are natural numbers; `uint64_t` counters are natural numbers
reduced modulo `2 ^ 64` where the source adds to them.
-/

namespace AtomApiUrlLoader

/-! ## Mojo and net constants -/

/-- The mojo result code `MOJO_RESULT_OK`. -/
def MOJO_RESULT_OK : Nat := 0

/-- The mojo result code `MOJO_RESULT_OUT_OF_RANGE`. -/
def MOJO_RESULT_OUT_OF_RANGE : Nat := 11

/-- The net error code `net::OK`. -/
def net_OK : Int := 0

/-- Number of values of a `uint64_t`. -/
def UINT64_SIZE : Nat := 2 ^ 64

/-! ## BufferDataSource (lines 25-52) -/

/-- The call `memcpy(dst, src, n)` on spans: the first `n` bytes of `dst` become the
first `n` bytes of `src`.  An access past the end of either span is `none`. -/
def memcpy (dst src : List Nat) (n : Nat) : Option (List Nat) :=
  if n ≤ src.length ∧ n ≤ dst.length then some (src.take n ++ dst.drop n) else none

/-- The struct `mojo::DataPipeProducer::DataSource::ReadResult`: `result` starts as
`MOJO_RESULT_OK` and `bytes_read` as `0`. -/
structure ReadResult where
  result : Nat := MOJO_RESULT_OK
  bytes_read : Nat := 0
  deriving DecidableEq, Repr

/-- The class `BufferDataSource`: its only member is `std::vector<char> buffer_`. -/
structure BufferDataSource where
  buffer_ : List Nat
  deriving DecidableEq, Repr

/-- The constructor: `buffer_.resize(buffer.size())` followed by
`memcpy(buffer_.data(), buffer.data(), buffer_.size())`. -/
def BufferDataSource.create (buffer : List Nat) : BufferDataSource :=
  let resized := List.replicate buffer.length 0
  { buffer_ := (memcpy resized buffer resized.length).getD resized }

/-- Method `GetLength()`: `buffer_.size()`. -/
def BufferDataSource.GetLength (self : BufferDataSource) : Nat :=
  self.buffer_.length

/-- The address `&v[n]` taken through `std::vector::operator[]`: the span of
`v` that starts at element `n`.  The operator is defined for `n < v.size()`
only; an index at or past the size is `none`. -/
def elementAddress (v : List Nat) (n : Nat) : Option (List Nat) :=
  if n < v.length then some (v.drop n) else none

/-- Method `Read(offset, buffer)`.  The result pairs the `ReadResult` with the
contents of the destination span afterwards; `none` is an index outside
`buffer_` (in `buffer_[offset]`, which line 42 evaluates whatever the number
of bytes to copy) or a copy past the end of either span.  `NOTREACHED()` is a
debug check and no statement of the release build. -/
def BufferDataSource.Read (self : BufferDataSource) (offset : Nat) (buffer : List Nat) :
    Option (ReadResult × List Nat) :=
  if offset ≤ self.buffer_.length then
    let readable_size := self.buffer_.length - offset
    let writable_size := buffer.length
    let copyable_size := min readable_size writable_size
    match elementAddress self.buffer_ offset with
    | none => none
    | some source =>
      match memcpy buffer source copyable_size with
      | some buffer' => some ({ bytes_read := copyable_size }, buffer')
      | none => none
  else
    some ({ result := MOJO_RESULT_OUT_OF_RANGE }, buffer)

/-- A consumer that reads the whole source through a destination span of
capacity `capacity`, advancing the offset by `bytes_read` after each `Read`
and stopping when the offset reaches `GetLength()`, when a `Read` fails, or
when the fuel is spent.  It returns the bytes received, in order. -/
def readAll (src : BufferDataSource) (capacity : Nat) : Nat → Nat → List Nat
  | 0, _ => []
  | fuel + 1, offset =>
    if offset < src.GetLength then
      match src.Read offset (List.replicate capacity 0) with
      | some (r, dest) =>
        if r.result = MOJO_RESULT_OK then
          dest.take r.bytes_read ++ readAll src capacity fuel (offset + r.bytes_read)
        else []
      | none => []
    else []

/-! ## JSChunkedDataPipeGetter (lines 54-174) -/

/-- A script value (`v8::Local<v8::Value>`).  `IsArrayBufferView()` holds for
`arrayBufferView bytes`, whose bytes are the `ByteLength()` bytes of the
backing store from `ByteOffset()` on; `string s` is a script string; every
other value is `other`. -/
inductive V8Value where
  | arrayBufferView (bytes : List Nat)
  | string (s : String)
  | other
  deriving DecidableEq, Repr

/-- The test `buffer_val->IsArrayBufferView()`. -/
def V8Value.IsArrayBufferView : V8Value → Bool
  | .arrayBufferView _ => true
  | _ => false

/-- The state of a `gin_helper::Promise<void>` as seen through its handle. -/
inductive PromiseState where
  | pending
  | resolved
  | rejected (message : String)
  deriving DecidableEq, Repr

/-- Whether the promise is rejected, with whatever message. -/
def PromiseState.isRejected : PromiseState → Bool
  | .rejected _ => true
  | _ => false

/-- A bound `GetSizeCallback`, identified by the request it answers. -/
structure GetSizeCallback where
  id : Nat
  deriving DecidableEq, Repr

/-- The class `mojo::DataPipeProducer`, built around the producer end of a
pipe. -/
structure DataPipeProducer where
  pipe : Nat
  deriving DecidableEq, Repr

/-- The data members of `JSChunkedDataPipeGetter` that its methods read or
write, with their in-class initial values.  A null `size_callback_` or
`data_producer_` is `none`. -/
structure JSChunkedDataPipeGetter where
  size_callback_ : Option GetSizeCallback := none
  data_producer_ : Option DataPipeProducer := none
  is_writing_ : Bool := false
  bytes_written_ : Nat := 0
  deriving DecidableEq, Repr

/-- What a method does besides changing the object. -/
inductive Effect where
  /-- The handle that `WriteChunk` returned is of a promise in this state. -/
  | promiseReturned (p : PromiseState)
  /-- A chunk handed to the transport: `data_producer_->Write(source, ...)`. -/
  | transportWrite (producer : DataPipeProducer) (source : BufferDataSource)
  /-- The promise bound to the write, as `OnWriteChunkComplete` settled it. -/
  | promiseSettled (p : PromiseState)
  /-- The size report `std::move(size_callback_).Run(net_error, size)`. -/
  | sizeCallbackRun (cb : GetSizeCallback) (net_error : Int) (size : Nat)
  /-- The call `node::MakeCallback(..., body_func_, ...)` with the wrapper. -/
  | bodyFuncCalled
  deriving DecidableEq, Repr

/-- What `WriteChunk` returns and hands over: the promise behind the
returned handle and, when the chunk was accepted, the data source given to
`data_producer_->Write`. -/
structure WriteChunkResult where
  promise : PromiseState
  written : Option (DataPipeProducer × BufferDataSource)
  deriving DecidableEq, Repr

/-- A freshly constructed getter. -/
def JSChunkedDataPipeGetter.fresh : JSChunkedDataPipeGetter := {}

/-- Method `GetSize(callback)`: `size_callback_ = std::move(callback)`. -/
def JSChunkedDataPipeGetter.GetSize (self : JSChunkedDataPipeGetter) (callback : GetSizeCallback) :
    JSChunkedDataPipeGetter :=
  { self with size_callback_ := some callback }

/-- Method `StartReading(pipe)`: replaces `data_producer_`; then, unless the
wrapper cannot be obtained (`wrapper_ok = false`), calls `body_func_` with
it. -/
def JSChunkedDataPipeGetter.StartReading (self : JSChunkedDataPipeGetter) (pipe : Nat)
    (wrapper_ok : Bool) : JSChunkedDataPipeGetter × List Effect :=
  let self' := { self with data_producer_ := some { pipe := pipe } }
  if !wrapper_ok then (self', []) else (self', [Effect.bodyFuncCalled])

/-- Method `WriteChunk(buffer_val)`.  `none` is the dereference of a null
`data_producer_`. -/
def JSChunkedDataPipeGetter.WriteChunk (self : JSChunkedDataPipeGetter) (buffer_val : V8Value) :
    Option (JSChunkedDataPipeGetter × WriteChunkResult) :=
  match buffer_val with
  | .string _ | .other =>
    some (self, { promise := .rejected "Expected an ArrayBufferView", written := none })
  | .arrayBufferView bytes =>
    if self.is_writing_ then
      some (self, { promise := .rejected "Only one write can be pending at a time",
                    written := none })
    else if self.size_callback_.isNone then
      some (self, { promise := .rejected "Can't write after calling done()", written := none })
    else
      let self' := { self with is_writing_ := true,
                               bytes_written_ := (self.bytes_written_ + bytes.length) % UINT64_SIZE }
      match self'.data_producer_ with
      | none => none
      | some producer =>
        some (self', { promise := .pending,
                       written := some (producer, BufferDataSource.create bytes) })

/-- Method `OnWriteChunkComplete(promise, result)`: the second component is
the state in which it leaves the promise bound to the write. -/
def JSChunkedDataPipeGetter.OnWriteChunkComplete (self : JSChunkedDataPipeGetter) (result : Nat) :
    JSChunkedDataPipeGetter × PromiseState :=
  let self' := { self with is_writing_ := false }
  if result = MOJO_RESULT_OK then
    (self', .resolved)
  else
    ({ self' with size_callback_ := none }, .rejected "mojo result not ok")

/-- Method `Done()`: runs and consumes `size_callback_` when there is one. -/
def JSChunkedDataPipeGetter.Done (self : JSChunkedDataPipeGetter) :
    JSChunkedDataPipeGetter × List Effect :=
  match self.size_callback_ with
  | some cb =>
    ({ self with size_callback_ := none }, [Effect.sizeCallbackRun cb net_OK self.bytes_written_])
  | none => (self, [])

/-- The calls that reach a getter: the two mojo methods, the two script
methods and the write completion of the data pipe producer. -/
inductive Op where
  | GetSize (callback : GetSizeCallback)
  | StartReading (pipe : Nat) (wrapper_ok : Bool)
  | WriteChunk (buffer_val : V8Value)
  | OnWriteChunkComplete (result : Nat)
  | Done
  deriving DecidableEq, Repr

/-- Whether the call is `GetSize`. -/
def Op.isGetSize : Op → Bool
  | .GetSize _ => true
  | _ => false

/-- Whether the call is `OnWriteChunkComplete`. -/
def Op.isComplete : Op → Bool
  | .OnWriteChunkComplete _ => true
  | _ => false

/-- One call on the getter, with the effects it has. -/
def step (self : JSChunkedDataPipeGetter) : Op → Option (JSChunkedDataPipeGetter × List Effect)
  | .GetSize cb => some (self.GetSize cb, [])
  | .StartReading pipe ok => some (self.StartReading pipe ok)
  | .WriteChunk v =>
    match self.WriteChunk v with
    | none => none
    | some (self', r) =>
      match r.written with
      | some (producer, source) =>
        some (self', [Effect.transportWrite producer source, Effect.promiseReturned r.promise])
      | none => some (self', [Effect.promiseReturned r.promise])
  | .OnWriteChunkComplete result =>
    let (self', p) := self.OnWriteChunkComplete result
    some (self', [Effect.promiseSettled p])
  | .Done => some self.Done

/-- A sequence of calls, with the effects in order. -/
def run (self : JSChunkedDataPipeGetter) : List Op → Option (JSChunkedDataPipeGetter × List Effect)
  | [] => some (self, [])
  | op :: rest =>
    match step self op with
    | none => none
    | some (self', fx) =>
      match run self' rest with
      | none => none
      | some (self'', fx') => some (self'', fx ++ fx')

/-- The size reports among some effects: `(callback, net error, size)`. -/
def sizeReports : List Effect → List (GetSizeCallback × Int × Nat)
  | [] => []
  | Effect.sizeCallbackRun cb e n :: rest => (cb, e, n) :: sizeReports rest
  | _ :: rest => sizeReports rest

/-- The chunks handed to the transport among some effects. -/
def transportWrites : List Effect → List BufferDataSource
  | [] => []
  | Effect.transportWrite _ src :: rest => src :: transportWrites rest
  | _ :: rest => transportWrites rest

/-- The producer script of a well-behaved upload: each chunk is written and
its drain completes with `MOJO_RESULT_OK` before the next write. -/
def writeAll : List (List Nat) → List Op
  | [] => []
  | c :: rest =>
    Op.WriteChunk (.arrayBufferView c) :: Op.OnWriteChunkComplete MOJO_RESULT_OK :: writeAll rest

/-- Sum of the byte lengths of some chunks. -/
def totalLength : List (List Nat) → Nat
  | [] => 0
  | c :: rest => c.length + totalLength rest

/-- The effects of `writeAll chunks` on a getter that accepts every chunk:
each chunk goes to the transport, its promise is returned pending and is
resolved by the completion. -/
def writeAllEffects (producer : DataPipeProducer) : List (List Nat) → List Effect
  | [] => []
  | c :: rest =>
    Effect.transportWrite producer (BufferDataSource.create c) ::
      Effect.promiseReturned .pending :: Effect.promiseSettled .resolved ::
      writeAllEffects producer rest

/-! ## SimpleURLLoaderWrapper (lines 202-389) -/

/-- The struct `net::AuthChallengeInfo`, identified by the challenge. -/
structure AuthChallengeInfo where
  id : Nat
  deriving DecidableEq, Repr

/-- The remote `mojo::Remote<network::mojom::AuthChallengeResponder>`,
identified by the pipe it is bound to. -/
structure AuthChallengeResponder where
  pipe : Nat
  deriving DecidableEq, Repr

/-- A call `auth_responder->OnAuthCredentials(credentials)`: `none` is
`base::nullopt` (the challenge is declined), `some (username, password)` is
`net::AuthCredentials(username, password)`. -/
structure OnAuthCredentialsCall where
  responder : AuthChallengeResponder
  credentials : Option (String × String)
  deriving DecidableEq, Repr

/-- The call `gin::Arguments::GetNext(&out)` for a `base::string16`: fails
when no argument is left, otherwise takes the next argument and succeeds when
it is a string.  The second component is the arguments that remain. -/
def GetNext : List V8Value → Option String × List V8Value
  | [] => (none, [])
  | .string s :: rest => (some s, rest)
  | _ :: rest => (none, rest)

/-- The body of the `login` callback (lines 268-277) with its bound
responder: the one call it makes on the responder. -/
def loginCallbackBody (auth_responder : AuthChallengeResponder) (args : List V8Value) :
    OnAuthCredentialsCall :=
  match GetNext args with
  | (none, _) => { responder := auth_responder, credentials := none }
  | (some username_str, args') =>
    match GetNext args' with
    | (none, _) => { responder := auth_responder, credentials := none }
    | (some password_str, _) =>
      { responder := auth_responder, credentials := some (username_str, password_str) }

/-- The result of `base::AdaptCallbackForRepeating(std::move(cb))`: a
repeating callback around the once-callback `cb`, which holds the bound
responder until the first run (`none` afterwards). -/
structure LoginCallback where
  cb : Option AuthChallengeResponder
  deriving DecidableEq, Repr

/-- Running the adapted callback: the first run runs `cb`, later runs do
nothing. -/
def LoginCallback.Run (self : LoginCallback) (args : List V8Value) :
    LoginCallback × List OnAuthCredentialsCall :=
  match self.cb with
  | some auth_responder => ({ cb := none }, [loginCallbackBody auth_responder args])
  | none => (self, [])

/-- Running the adapted callback several times, with the calls that reach the
responder in order. -/
def LoginCallback.RunAll (self : LoginCallback) : List (List V8Value) → List OnAuthCredentialsCall
  | [] => []
  | args :: rest => (self.Run args).2 ++ (self.Run args).1.RunAll rest

/-- An event emitted with `Emit(name, ...)`.  The message of `error` is
`net::ErrorToString` of the carried net error. -/
inductive Event where
  | login (auth_info : AuthChallengeInfo) (callback : LoginCallback)
  | responseStarted (final_url : String) (statusCode : Int)
  | data (bytes : List Nat)
  | complete
  | error (net_error : Int)
  deriving DecidableEq, Repr

/-- The name of an event: the first argument of `Emit`. -/
def Event.name : Event → String
  | .login _ _ => "login"
  | .responseStarted _ _ => "response-started"
  | .data _ => "data"
  | .complete => "complete"
  | .error _ => "error"

/-- Whether the event is `complete` or `error`. -/
def Event.isTerminal : Event → Bool
  | .complete => true
  | .error _ => true
  | _ => false

/-- What a method of the wrapper does besides changing the object. -/
inductive Output where
  | emit (e : Event)
  /-- The call `std::move(resume).Run()` in `OnDataReceived`. -/
  | resume
  deriving DecidableEq, Repr

/-- The class `network::SimpleURLLoader`: `NetError()` is all the wrapper
reads of it. -/
structure SimpleURLLoader where
  NetError : Int
  deriving DecidableEq, Repr

/-- The data members of `SimpleURLLoaderWrapper` that its methods write: a
null `loader_` is `none`, an empty `pinned_wrapper_` is `false`. -/
structure SimpleURLLoaderWrapper where
  loader_ : Option SimpleURLLoader
  pinned_wrapper_ : Bool
  deriving DecidableEq, Repr

/-- The constructor (lines 210-242): it creates the loader, starts the
download and pins the wrapper. -/
def SimpleURLLoaderWrapper.create (loader : SimpleURLLoader) : SimpleURLLoaderWrapper :=
  { loader_ := some loader, pinned_wrapper_ := true }

/-- Method `OnAuthRequired(url, first_auth_attempt, auth_info, head, responder)`;
`head` is not used. -/
def SimpleURLLoaderWrapper.OnAuthRequired (self : SimpleURLLoaderWrapper)
    (_url : String) (_first_auth_attempt : Bool) (auth_info : AuthChallengeInfo)
    (auth_challenge_responder : AuthChallengeResponder) :
    SimpleURLLoaderWrapper × List Output :=
  (self, [Output.emit (.login auth_info { cb := some auth_challenge_responder })])

/-- Method `Cancel()`. -/
def SimpleURLLoaderWrapper.Cancel (self : SimpleURLLoaderWrapper) : SimpleURLLoaderWrapper :=
  { self with loader_ := none, pinned_wrapper_ := false }

/-- Method `OnDataReceived(string_piece, resume)`. -/
def SimpleURLLoaderWrapper.OnDataReceived (self : SimpleURLLoaderWrapper)
    (string_piece : List Nat) : SimpleURLLoaderWrapper × List Output :=
  (self, [Output.emit (.data string_piece), Output.resume])

/-- Method `OnComplete(success)`.  `none` is the dereference of a null `loader_` in
`loader_->NetError()`. -/
def SimpleURLLoaderWrapper.OnComplete (self : SimpleURLLoaderWrapper) (success : Bool) :
    Option (SimpleURLLoaderWrapper × List Output) :=
  if success then
    some ({ self with loader_ := none, pinned_wrapper_ := false }, [Output.emit .complete])
  else
    match self.loader_ with
    | none => none
    | some loader =>
      some ({ self with loader_ := none, pinned_wrapper_ := false },
            [Output.emit (.error loader.NetError)])

/-- Method `OnRetry(start_retry)`: empty. -/
def SimpleURLLoaderWrapper.OnRetry (self : SimpleURLLoaderWrapper) :
    SimpleURLLoaderWrapper × List Output :=
  (self, [])

/-- Method `OnResponseStarted(final_url, response_head)`, where `response_code` is
`response_head.headers->response_code()`. -/
def SimpleURLLoaderWrapper.OnResponseStarted (self : SimpleURLLoaderWrapper)
    (final_url : String) (response_code : Int) : SimpleURLLoaderWrapper × List Output :=
  (self, [Output.emit (.responseStarted final_url response_code)])

/-- A callback of the network engine into the wrapper. -/
inductive Callback where
  | OnAuthRequired (url : String) (first_auth_attempt : Bool) (auth_info : AuthChallengeInfo)
      (responder : AuthChallengeResponder)
  | OnResponseStarted (final_url : String) (response_code : Int)
  | OnDataReceived (string_piece : List Nat)
  | OnComplete (success : Bool)
  | OnRetry
  deriving DecidableEq, Repr

/-- Whether the callback is `OnComplete`. -/
def Callback.isComplete : Callback → Bool
  | .OnComplete _ => true
  | _ => false

/-- The method a callback runs. -/
def SimpleURLLoaderWrapper.handle (self : SimpleURLLoaderWrapper) :
    Callback → Option (SimpleURLLoaderWrapper × List Output)
  | .OnAuthRequired url first_auth_attempt auth_info responder =>
    some (self.OnAuthRequired url first_auth_attempt auth_info responder)
  | .OnResponseStarted final_url response_code =>
    some (self.OnResponseStarted final_url response_code)
  | .OnDataReceived string_piece => some (self.OnDataReceived string_piece)
  | .OnComplete success => self.OnComplete success
  | .OnRetry => some self.OnRetry

/-- What happens to a wrapper.  `viaLoader c` is a callback that the engine
sends through the loader the wrapper owns (the constructor hands `this` to
`loader_`, lines 228-230): it runs while `loader_` is there, and a loader
that `Cancel` or `OnComplete` has destroyed calls nothing (lines 285-286).
`direct c` is a call of the method itself on the wrapper object, by a caller
that found the wrapper otherwise (`FromID`, lines 249-252).  `Cancel` is the
script call `cancel()`. -/
inductive Input where
  | viaLoader (c : Callback)
  | direct (c : Callback)
  | Cancel
  deriving DecidableEq, Repr

/-- Whether the input does not come through the owned loader. -/
def Input.isDirect : Input → Bool
  | .direct _ => true
  | _ => false

/-- One input to the wrapper. -/
def SimpleURLLoaderWrapper.step (self : SimpleURLLoaderWrapper) :
    Input → Option (SimpleURLLoaderWrapper × List Output)
  | .viaLoader c =>
    match self.loader_ with
    | some _ => self.handle c
    | none => some (self, [])
  | .direct c => self.handle c
  | .Cancel => some (self.Cancel, [])

/-- A sequence of inputs, with the outputs in order. -/
def SimpleURLLoaderWrapper.run (self : SimpleURLLoaderWrapper) :
    List Input → Option (SimpleURLLoaderWrapper × List Output)
  | [] => some (self, [])
  | i :: rest =>
    match self.step i with
    | none => none
    | some (self', out) =>
      match self'.run rest with
      | none => none
      | some (self'', out') => some (self'', out ++ out')

/-- The events among some outputs. -/
def events : List Output → List Event
  | [] => []
  | Output.emit e :: rest => e :: events rest
  | Output.resume :: rest => events rest

/-- The terminal events among some events. -/
def terminalEvents (evs : List Event) : List Event :=
  evs.filter Event.isTerminal

/-! ## Request headers in SimpleURLLoaderWrapper::New (lines 299-310) -/

/-- Modelled from the spec: a header name must satisfy the transport token
grammar.  `net::HttpUtil::IsTokenChar` belongs to Chromium and is only called
here; this is the token character set of HTTP: a visible ASCII character that
is not a separator. -/
def IsTokenChar (c : Char) : Bool :=
  !(c.toNat ≥ 0x7F || c.toNat ≤ 0x20 || c = '(' || c = ')' || c = '<' ||
    c = '>' || c = '@' || c = ',' || c = ';' || c = ':' ||
    c = '\\' || c = '"' || c = '/' || c = '[' || c = ']' ||
    c = '?' || c = '=' || c = '\x7b' || c = '\x7d')

/-- Modelled from the spec: the name of a header must satisfy the token
grammar.  `net::HttpUtil::IsValidHeaderName` belongs to Chromium and is only
called here; a valid name is a non-empty token. -/
def IsValidHeaderName (name : String) : Bool :=
  !name.toList.isEmpty && name.toList.all IsTokenChar

/-- Modelled from the spec: the value of a header must satisfy the field
value grammar.  `net::HttpUtil::IsValidHeaderValue` belongs to Chromium and
is only called here; a valid field value holds no NUL, CR or LF. -/
def IsValidHeaderValue (value : String) : Bool :=
  value.toList.all (fun c => !(c = '\x00' || c = '\r' || c = '\n'))

/-- The function `base::ToLowerASCII` on a character. -/
def ToLowerASCII (c : Char) : Char :=
  if 'A'.toNat ≤ c.toNat ∧ c.toNat ≤ 'Z'.toNat then Char.ofNat (c.toNat + 32) else c

/-- The function `base::EqualsCaseInsensitiveASCII`: equal up to the case of
ASCII letters. -/
def EqualsCaseInsensitiveASCII (a b : String) : Bool :=
  a.toList.map ToLowerASCII == b.toList.map ToLowerASCII

/-- The class `net::HttpRequestHeaders`: the header vector, in order. -/
abbrev HttpRequestHeaders := List (String × String)

/-- The setter `net::HttpRequestHeaders::SetHeader(key, value)`, which belongs
to Chromium and is only called here.  Header names are compared up to ASCII
case: when a header with the name `key` exists, its value is replaced, its
name and position kept; otherwise the pair is appended. -/
def SetHeader : HttpRequestHeaders → String → String → HttpRequestHeaders
  | [], key, value => [(key, value)]
  | (k, v) :: rest, key, value =>
    if EqualsCaseInsensitiveASCII key k then (k, value) :: rest
    else (k, v) :: SetHeader rest key value

/-- The test of line 302-303 on a map entry. -/
def validEntry (it : String × String) : Bool :=
  IsValidHeaderName it.1 && IsValidHeaderValue it.2

/-- The loop of lines 301-309 over `extra_headers`, given as the entries of
the `std::map` in iteration order, with a header setter `set`; it starts
from the empty headers of a new `ResourceRequest`. -/
def headersLoop (set : HttpRequestHeaders → String → String → HttpRequestHeaders)
    (extra_headers : List (String × String)) : HttpRequestHeaders :=
  extra_headers.foldl
    (fun headers it => if validEntry it then set headers it.1 it.2 else headers) []

/-- The value of `request->headers` after lines 299-310 of
`SimpleURLLoaderWrapper::New`. -/
def NewRequestHeaders (extra_headers : List (String × String)) : HttpRequestHeaders :=
  headersLoop SetHeader extra_headers

/-- The order of `std::less<std::string>`: lexicographic on the characters. -/
def stringLess : List Nat → List Nat → Bool
  | _, [] => false
  | [], _ :: _ => true
  | a :: as, b :: bs => a < b || (a == b && stringLess as bs)

/-- The keys of a `std::map<std::string, std::string>` in iteration order are
strictly ascending. -/
def isStdMap : List (String × String) → Bool
  | [] => true
  | [_] => true
  | a :: b :: rest =>
    stringLess (a.1.toList.map Char.toNat) (b.1.toList.map Char.toNat) && isStdMap (b :: rest)

/-! ### Lemmas on BufferDataSource -/

theorem memcpy_of_le (dst src : List Nat) (n : Nat) (hs : n ≤ src.length)
    (hd : n ≤ dst.length) : memcpy dst src n = some (src.take n ++ dst.drop n) := by
  simp [memcpy, hs, hd]

theorem create_buffer (b : List Nat) : (BufferDataSource.create b).buffer_ = b := by
  simp [BufferDataSource.create, memcpy]

theorem Read_in_range (src : BufferDataSource) (offset : Nat) (dest : List Nat)
    (h : offset < src.buffer_.length) :
    src.Read offset dest =
      some ({ result := MOJO_RESULT_OK,
              bytes_read := min (src.buffer_.length - offset) dest.length },
            (src.buffer_.drop offset).take (min (src.buffer_.length - offset) dest.length)
              ++ dest.drop (min (src.buffer_.length - offset) dest.length)) := by
  have h1 : min (src.buffer_.length - offset) dest.length ≤ (src.buffer_.drop offset).length := by
    simp
  have h2 : min (src.buffer_.length - offset) dest.length ≤ dest.length := Nat.min_le_right _ _
  simp only [BufferDataSource.Read, Nat.le_of_lt h, if_true, elementAddress, h,
    memcpy_of_le _ _ _ h1 h2]

/-- At the end of the buffer `Read` passes the test of line 38 and then
indexes `buffer_` at its size. -/
theorem Read_at_end (src : BufferDataSource) (dest : List Nat) :
    src.Read src.buffer_.length dest = none := by
  simp [BufferDataSource.Read, elementAddress]

theorem Read_past_end (src : BufferDataSource) (offset : Nat) (dest : List Nat)
    (h : src.buffer_.length < offset) :
    src.Read offset dest =
      some ({ result := MOJO_RESULT_OUT_OF_RANGE, bytes_read := 0 }, dest) := by
  have : ¬ offset ≤ src.buffer_.length := by omega
  simp [BufferDataSource.Read, this]

theorem readAll_spec (src : BufferDataSource) (c : Nat) (hc : 0 < c) :
    ∀ (fuel offset : Nat), offset ≤ src.buffer_.length →
      src.buffer_.length - offset ≤ fuel →
      readAll src c fuel offset = src.buffer_.drop offset := by
  intro fuel
  induction fuel with
  | zero =>
    intro offset h1 h2
    have : src.buffer_.length ≤ offset := by omega
    simp [readAll, List.drop_eq_nil_of_le this]
  | succ fuel ih =>
    intro offset h1 h2
    by_cases hlt : offset < src.buffer_.length
    · have hm : 0 < min (src.buffer_.length - offset) c := by
        apply Nat.lt_min.mpr
        constructor
        · omega
        · exact hc
      have hle : min (src.buffer_.length - offset) c ≤ src.buffer_.length - offset :=
        Nat.min_le_left _ _
      have ih' := ih (offset + min (src.buffer_.length - offset) c) (by omega) (by omega)
      simp only [readAll, BufferDataSource.GetLength, hlt, if_true,
        Read_in_range src offset (List.replicate c 0) hlt,
        List.length_replicate, ih']
      rw [List.take_append_of_le_length (by simp)]
      rw [List.take_take, Nat.min_self]
      rw [← List.drop_drop]
      exact List.take_append_drop _ _
    · have : src.buffer_.length ≤ offset := by omega
      simp [readAll, BufferDataSource.GetLength, hlt, List.drop_eq_nil_of_le this]

/-! ### Lemmas on JSChunkedDataPipeGetter -/

theorem WriteChunk_not_view (s : JSChunkedDataPipeGetter) (v : V8Value)
    (h : v.IsArrayBufferView = false) :
    s.WriteChunk v =
      some (s, { promise := .rejected "Expected an ArrayBufferView", written := none }) := by
  cases v with
  | arrayBufferView bytes => simp [V8Value.IsArrayBufferView] at h
  | string s => rfl
  | other => rfl

theorem WriteChunk_writing (s : JSChunkedDataPipeGetter) (bytes : List Nat)
    (h : s.is_writing_ = true) :
    s.WriteChunk (.arrayBufferView bytes) =
      some (s, { promise := .rejected "Only one write can be pending at a time",
                 written := none }) := by
  simp [JSChunkedDataPipeGetter.WriteChunk, h]

theorem WriteChunk_no_callback (s : JSChunkedDataPipeGetter) (bytes : List Nat)
    (hw : s.is_writing_ = false) (h : s.size_callback_ = none) :
    s.WriteChunk (.arrayBufferView bytes) =
      some (s, { promise := .rejected "Can't write after calling done()",
                 written := none }) := by
  simp [JSChunkedDataPipeGetter.WriteChunk, h, hw]

theorem WriteChunk_accept (s : JSChunkedDataPipeGetter) (bytes : List Nat)
    (cb : GetSizeCallback) (p : DataPipeProducer)
    (hw : s.is_writing_ = false) (hc : s.size_callback_ = some cb)
    (hp : s.data_producer_ = some p) :
    s.WriteChunk (.arrayBufferView bytes) =
      some ({ s with is_writing_ := true,
                     bytes_written_ := (s.bytes_written_ + bytes.length) % UINT64_SIZE },
            { promise := .pending, written := some (p, BufferDataSource.create bytes) }) := by
  simp [JSChunkedDataPipeGetter.WriteChunk, hc, hw, hp]

theorem view_of_IsArrayBufferView (v : V8Value) (h : v.IsArrayBufferView = true) :
    ∃ bytes, v = .arrayBufferView bytes := by
  cases v with
  | arrayBufferView bytes => exact ⟨bytes, rfl⟩
  | string s => simp [V8Value.IsArrayBufferView] at h
  | other => simp [V8Value.IsArrayBufferView] at h

/-- A call that returns a rejected promise returns the object as it was and
hands nothing to the transport. -/
theorem WriteChunk_rejected_inv (s s' : JSChunkedDataPipeGetter) (v : V8Value)
    (r : WriteChunkResult) (h : s.WriteChunk v = some (s', r))
    (hr : r.promise.isRejected = true) :
    s' = s ∧ r.written = none ∧
      (v.IsArrayBufferView = false ∨ s.is_writing_ = true ∨ s.size_callback_ = none) := by
  cases hv : v.IsArrayBufferView with
  | false =>
    simp only [WriteChunk_not_view s v hv, Option.some.injEq, Prod.mk.injEq] at h
    obtain ⟨h1, h2⟩ := h
    subst h1 h2
    simp
  | true =>
    obtain ⟨bytes, rfl⟩ := view_of_IsArrayBufferView v hv
    by_cases hw : s.is_writing_ = true
    · simp only [WriteChunk_writing s bytes hw, Option.some.injEq, Prod.mk.injEq] at h
      obtain ⟨h1, h2⟩ := h
      subst h1 h2
      simp [hw]
    · have hw' : s.is_writing_ = false := by simpa using hw
      cases hc : s.size_callback_ with
      | none =>
        simp only [WriteChunk_no_callback s bytes hw' hc, Option.some.injEq, Prod.mk.injEq] at h
        obtain ⟨h1, h2⟩ := h
        subst h1 h2
        simp
      | some cb =>
        cases hp : s.data_producer_ with
        | none => simp [JSChunkedDataPipeGetter.WriteChunk, hw', hc, hp] at h
        | some p =>
          simp only [WriteChunk_accept s bytes cb p hw' hc hp, Option.some.injEq,
            Prod.mk.injEq] at h
          obtain ⟨_, h2⟩ := h
          subst h2
          simp [PromiseState.isRejected] at hr

/-- A call that returns a pending promise has set the in-progress flag. -/
theorem WriteChunk_pending_inv (s s' : JSChunkedDataPipeGetter) (v : V8Value)
    (r : WriteChunkResult) (h : s.WriteChunk v = some (s', r))
    (hr : r.promise = .pending) :
    s'.is_writing_ = true ∧ s'.size_callback_ = s.size_callback_ ∧
      s'.size_callback_.isSome = true := by
  cases hv : v.IsArrayBufferView with
  | false =>
    simp only [WriteChunk_not_view s v hv, Option.some.injEq, Prod.mk.injEq] at h
    obtain ⟨_, h2⟩ := h
    subst h2
    simp at hr
  | true =>
    obtain ⟨bytes, rfl⟩ := view_of_IsArrayBufferView v hv
    by_cases hw : s.is_writing_ = true
    · simp only [WriteChunk_writing s bytes hw, Option.some.injEq, Prod.mk.injEq] at h
      obtain ⟨_, h2⟩ := h
      subst h2
      simp at hr
    · have hw' : s.is_writing_ = false := by simpa using hw
      cases hc : s.size_callback_ with
      | none =>
        simp only [WriteChunk_no_callback s bytes hw' hc, Option.some.injEq, Prod.mk.injEq] at h
        obtain ⟨_, h2⟩ := h
        subst h2
        simp at hr
      | some cb =>
        cases hp : s.data_producer_ with
        | none => simp [JSChunkedDataPipeGetter.WriteChunk, hw', hc, hp] at h
        | some p =>
          simp only [WriteChunk_accept s bytes cb p hw' hc hp, Option.some.injEq,
            Prod.mk.injEq] at h
          obtain ⟨h1, _⟩ := h
          subst h1
          simp [hc]

/-- While the in-progress flag is set, every `WriteChunk` is rejected. -/
theorem WriteChunk_rejects_while_writing (s : JSChunkedDataPipeGetter) (v : V8Value)
    (h : s.is_writing_ = true) :
    ∃ msg, s.WriteChunk v = some (s, { promise := .rejected msg, written := none }) := by
  cases hv : v.IsArrayBufferView with
  | false => exact ⟨_, WriteChunk_not_view s v hv⟩
  | true =>
    obtain ⟨bytes, rfl⟩ := view_of_IsArrayBufferView v hv
    exact ⟨_, WriteChunk_writing s bytes h⟩

/-- Without a size callback, every `WriteChunk` is rejected. -/
theorem WriteChunk_rejects_without_callback (s : JSChunkedDataPipeGetter) (v : V8Value)
    (h : s.size_callback_ = none) :
    ∃ msg, s.WriteChunk v = some (s, { promise := .rejected msg, written := none }) := by
  cases hv : v.IsArrayBufferView with
  | false => exact ⟨_, WriteChunk_not_view s v hv⟩
  | true =>
    obtain ⟨bytes, rfl⟩ := view_of_IsArrayBufferView v hv
    by_cases hw : s.is_writing_ = true
    · exact ⟨_, WriteChunk_writing s bytes hw⟩
    · exact ⟨_, WriteChunk_no_callback s bytes (by simpa using hw) h⟩

theorem run_cons_some (s s' s'' : JSChunkedDataPipeGetter) (op : Op) (rest : List Op)
    (fx fx' : List Effect) (h1 : step s op = some (s', fx))
    (h2 : run s' rest = some (s'', fx')) :
    run s (op :: rest) = some (s'', fx ++ fx') := by
  simp [run, h1, h2]

theorem sizeReports_append (a b : List Effect) :
    sizeReports (a ++ b) = sizeReports a ++ sizeReports b := by
  induction a with
  | nil => rfl
  | cons e a ih => cases e <;> simp [sizeReports, ih]

theorem transportWrites_append (a b : List Effect) :
    transportWrites (a ++ b) = transportWrites a ++ transportWrites b := by
  induction a with
  | nil => rfl
  | cons e a ih => cases e <;> simp [transportWrites, ih]

theorem run_append (ops1 ops2 : List Op) :
    ∀ (s s1 s2 : JSChunkedDataPipeGetter) (fx1 fx2 : List Effect),
      run s ops1 = some (s1, fx1) → run s1 ops2 = some (s2, fx2) →
      run s (ops1 ++ ops2) = some (s2, fx1 ++ fx2) := by
  induction ops1 with
  | nil =>
    intro s s1 s2 fx1 fx2 h1 h2
    simp only [run, Option.some.injEq, Prod.mk.injEq] at h1
    obtain ⟨h1a, h1b⟩ := h1
    subst h1a h1b
    simpa using h2
  | cons op rest ih =>
    intro s s1 s2 fx1 fx2 h1 h2
    cases hs : step s op with
    | none => simp [run, hs] at h1
    | some p =>
      obtain ⟨s', fx⟩ := p
      cases hr : run s' rest with
      | none => simp [run, hs, hr] at h1
      | some q =>
        obtain ⟨s'', fx'⟩ := q
        simp only [run, hs, hr, Option.some.injEq, Prod.mk.injEq] at h1
        obtain ⟨h1a, h1b⟩ := h1
        subst h1a h1b
        have := ih s' s'' s2 fx' fx2 hr h2
        simp [run, hs, this, List.append_assoc]

/-- No call but `OnWriteChunkComplete` clears the in-progress flag, and while
it is set no call hands anything to the transport. -/
theorem run_while_writing (mid : List Op) :
    ∀ (s : JSChunkedDataPipeGetter), s.is_writing_ = true →
      (∀ op ∈ mid, op.isComplete = false) →
      ∃ s2 fx, run s mid = some (s2, fx) ∧ s2.is_writing_ = true ∧ transportWrites fx = [] := by
  induction mid with
  | nil => intro s h _; exact ⟨s, [], rfl, h, rfl⟩
  | cons op rest ih =>
    intro s h hmid
    have hrest : ∀ op ∈ rest, op.isComplete = false := fun o ho =>
      hmid o (List.mem_cons_of_mem _ ho)
    have hop : op.isComplete = false := hmid op (List.mem_cons_self _ _)
    cases op with
    | GetSize cb =>
      obtain ⟨s2, fx, h1, h2, h3⟩ := ih (s.GetSize cb)
        (by simpa [JSChunkedDataPipeGetter.GetSize] using h) hrest
      exact ⟨s2, [] ++ fx, run_cons_some _ _ _ _ _ _ _ rfl h1, h2, by simpa using h3⟩
    | StartReading pipe ok =>
      obtain ⟨s2, fx, h1, h2, h3⟩ := ih (s.StartReading pipe ok).1
        (by cases ok <;> simpa [JSChunkedDataPipeGetter.StartReading] using h) hrest
      refine ⟨s2, (s.StartReading pipe ok).2 ++ fx, run_cons_some _ _ _ _ _ _ _ rfl h1, h2, ?_⟩
      cases ok <;> simp [JSChunkedDataPipeGetter.StartReading, transportWrites, h3]
    | WriteChunk v =>
      obtain ⟨msg, hm⟩ := WriteChunk_rejects_while_writing s v h
      obtain ⟨s2, fx, h1, h2, h3⟩ := ih s h hrest
      refine ⟨s2, [Effect.promiseReturned (.rejected msg)] ++ fx,
        run_cons_some _ _ _ _ _ _ _ (by simp [step, hm]) h1, h2, ?_⟩
      simp [transportWrites, h3]
    | OnWriteChunkComplete result => simp [Op.isComplete] at hop
    | Done =>
      obtain ⟨s2, fx, h1, h2, h3⟩ := ih s.Done.1
        (by
          cases hc : s.size_callback_ <;> simp [JSChunkedDataPipeGetter.Done, hc, h]) hrest
      refine ⟨s2, s.Done.2 ++ fx, run_cons_some _ _ _ _ _ _ _ rfl h1, h2, ?_⟩
      cases hc : s.size_callback_ <;>
        simp [JSChunkedDataPipeGetter.Done, hc, transportWrites, h3]

/-- Only `GetSize` installs a size callback: without one, and without a
`GetSize` call, no call reports a size or hands anything to the transport. -/
theorem run_without_callback (ops : List Op) :
    ∀ (s : JSChunkedDataPipeGetter), s.size_callback_ = none →
      (∀ op ∈ ops, op.isGetSize = false) →
      ∃ s2 fx, run s ops = some (s2, fx) ∧ s2.size_callback_ = none ∧
        sizeReports fx = [] ∧ transportWrites fx = [] := by
  induction ops with
  | nil => intro s h _; exact ⟨s, [], rfl, h, rfl, rfl⟩
  | cons op rest ih =>
    intro s h hops
    have hrest : ∀ op ∈ rest, op.isGetSize = false := fun o ho =>
      hops o (List.mem_cons_of_mem _ ho)
    have hop : op.isGetSize = false := hops op (List.mem_cons_self _ _)
    cases op with
    | GetSize cb => simp [Op.isGetSize] at hop
    | StartReading pipe ok =>
      obtain ⟨s2, fx, h1, h2, h3, h4⟩ := ih (s.StartReading pipe ok).1
        (by cases ok <;> simpa [JSChunkedDataPipeGetter.StartReading] using h) hrest
      refine ⟨s2, (s.StartReading pipe ok).2 ++ fx, run_cons_some _ _ _ _ _ _ _ rfl h1, h2,
        ?_, ?_⟩
      · cases ok <;> simp [JSChunkedDataPipeGetter.StartReading, sizeReports, h3]
      · cases ok <;> simp [JSChunkedDataPipeGetter.StartReading, transportWrites, h4]
    | WriteChunk v =>
      obtain ⟨msg, hm⟩ := WriteChunk_rejects_without_callback s v h
      obtain ⟨s2, fx, h1, h2, h3, h4⟩ := ih s h hrest
      refine ⟨s2, [Effect.promiseReturned (.rejected msg)] ++ fx,
        run_cons_some _ _ _ _ _ _ _ (by simp [step, hm]) h1, h2, ?_, ?_⟩
      · simp [sizeReports, h3]
      · simp [transportWrites, h4]
    | OnWriteChunkComplete result =>
      obtain ⟨s2, fx, h1, h2, h3, h4⟩ := ih (s.OnWriteChunkComplete result).1
        (by
          by_cases hr : result = MOJO_RESULT_OK <;>
            simp [JSChunkedDataPipeGetter.OnWriteChunkComplete, hr, h]) hrest
      refine ⟨s2, [Effect.promiseSettled (s.OnWriteChunkComplete result).2] ++ fx,
        run_cons_some _ _ _ _ _ _ _ rfl h1, h2, ?_, ?_⟩
      · simp [sizeReports, h3]
      · simp [transportWrites, h4]
    | Done =>
      have hd : s.Done = (s, []) := by simp [JSChunkedDataPipeGetter.Done, h]
      obtain ⟨s2, fx, h1, h2, h3, h4⟩ := ih s h hrest
      exact ⟨s2, [] ++ fx, run_cons_some _ _ _ _ _ _ _ (by simp [step, hd]) h1, h2,
        by simpa using h3, by simpa using h4⟩

theorem run_writeAll (cb : GetSizeCallback) (p : DataPipeProducer) (chunks : List (List Nat)) :
    ∀ (bw : Nat), bw < UINT64_SIZE →
      run { size_callback_ := some cb, data_producer_ := some p, is_writing_ := false,
            bytes_written_ := bw } (writeAll chunks) =
        some ({ size_callback_ := some cb, data_producer_ := some p, is_writing_ := false,
                bytes_written_ := (bw + totalLength chunks) % UINT64_SIZE },
              writeAllEffects p chunks) := by
  induction chunks with
  | nil =>
    intro bw hbw
    simp [writeAll, run, totalLength, writeAllEffects, Nat.mod_eq_of_lt hbw]
  | cons c rest ih =>
    intro bw hbw
    have hpos : 0 < UINT64_SIZE := by simp [UINT64_SIZE]
    have hlt : (bw + c.length) % UINT64_SIZE < UINT64_SIZE := Nat.mod_lt _ hpos
    have h := ih ((bw + c.length) % UINT64_SIZE) hlt
    have harith : ((bw + c.length) % UINT64_SIZE + totalLength rest) % UINT64_SIZE =
        (bw + (c.length + totalLength rest)) % UINT64_SIZE := by
      rw [Nat.add_mod, Nat.mod_mod, ← Nat.add_mod, Nat.add_assoc]
    rw [harith] at h
    simp [writeAll, run, step, JSChunkedDataPipeGetter.WriteChunk,
      JSChunkedDataPipeGetter.OnWriteChunkComplete, totalLength, writeAllEffects, h]

theorem run_replicate_Done_without_callback (s : JSChunkedDataPipeGetter)
    (h : s.size_callback_ = none) (n : Nat) :
    run s (List.replicate n Op.Done) = some (s, []) := by
  induction n with
  | zero => rfl
  | succ n ih =>
    simp [List.replicate_succ, run, step, JSChunkedDataPipeGetter.Done, h, ih]

theorem sizeReports_writeAllEffects (p : DataPipeProducer) (chunks : List (List Nat)) :
    sizeReports (writeAllEffects p chunks) = [] := by
  induction chunks with
  | nil => rfl
  | cons c rest ih => simp [writeAllEffects, sizeReports, ih]

/-! ### Lemmas on SimpleURLLoaderWrapper -/

theorem wrapper_run_cons_some (s s' s'' : SimpleURLLoaderWrapper) (i : Input)
    (rest : List Input) (out out' : List Output) (h1 : s.step i = some (s', out))
    (h2 : s'.run rest = some (s'', out')) :
    s.run (i :: rest) = some (s'', out ++ out') := by
  simp [SimpleURLLoaderWrapper.run, h1, h2]

theorem wrapper_run_append (ins1 ins2 : List Input) :
    ∀ (s s1 s2 : SimpleURLLoaderWrapper) (out1 out2 : List Output),
      s.run ins1 = some (s1, out1) → s1.run ins2 = some (s2, out2) →
      s.run (ins1 ++ ins2) = some (s2, out1 ++ out2) := by
  induction ins1 with
  | nil =>
    intro s s1 s2 out1 out2 h1 h2
    simp only [SimpleURLLoaderWrapper.run, Option.some.injEq, Prod.mk.injEq] at h1
    obtain ⟨h1a, h1b⟩ := h1
    subst h1a h1b
    simpa using h2
  | cons i rest ih =>
    intro s s1 s2 out1 out2 h1 h2
    cases hs : s.step i with
    | none => simp [SimpleURLLoaderWrapper.run, hs] at h1
    | some p =>
      obtain ⟨s', out⟩ := p
      cases hr : s'.run rest with
      | none => simp [SimpleURLLoaderWrapper.run, hs, hr] at h1
      | some q =>
        obtain ⟨s'', out'⟩ := q
        simp only [SimpleURLLoaderWrapper.run, hs, hr, Option.some.injEq, Prod.mk.injEq] at h1
        obtain ⟨h1a, h1b⟩ := h1
        subst h1a h1b
        have := ih s' s'' s2 out' out2 hr h2
        simp [SimpleURLLoaderWrapper.run, hs, this, List.append_assoc]

/-- Once the loader is released, nothing that comes through it, and no
`Cancel`, changes the wrapper or emits anything. -/
theorem run_released (ins : List Input) (h : ∀ i ∈ ins, i.isDirect = false) :
    SimpleURLLoaderWrapper.run { loader_ := none, pinned_wrapper_ := false } ins =
      some ({ loader_ := none, pinned_wrapper_ := false }, []) := by
  induction ins with
  | nil => rfl
  | cons i rest ih =>
    have hrest : ∀ i ∈ rest, i.isDirect = false := fun j hj => h j (List.mem_cons_of_mem _ hj)
    have hi : i.isDirect = false := h i (List.mem_cons_self _ _)
    cases i with
    | viaLoader c => simp [SimpleURLLoaderWrapper.run, SimpleURLLoaderWrapper.step, ih hrest]
    | direct c => simp [Input.isDirect] at hi
    | Cancel =>
      simp [SimpleURLLoaderWrapper.run, SimpleURLLoaderWrapper.step,
        SimpleURLLoaderWrapper.Cancel, ih hrest]

theorem events_append (a b : List Output) : events (a ++ b) = events a ++ events b := by
  induction a with
  | nil => rfl
  | cons o a ih => cases o <;> simp [events, ih]

/-- A callback other than `OnComplete` leaves the wrapper as it is and emits
no terminal event. -/
theorem handle_not_complete (s : SimpleURLLoaderWrapper) (c : Callback)
    (hc : c.isComplete = false) :
    ∃ out, s.handle c = some (s, out) ∧ (events out).any Event.isTerminal = false := by
  cases c with
  | OnAuthRequired u f a r =>
    exact ⟨_, rfl, by simp [SimpleURLLoaderWrapper.OnAuthRequired, events, Event.isTerminal]⟩
  | OnResponseStarted u code =>
    exact ⟨_, rfl, by simp [SimpleURLLoaderWrapper.OnResponseStarted, events, Event.isTerminal]⟩
  | OnDataReceived d =>
    exact ⟨_, rfl, by simp [SimpleURLLoaderWrapper.OnDataReceived, events, Event.isTerminal]⟩
  | OnComplete b => simp [Callback.isComplete] at hc
  | OnRetry =>
    exact ⟨_, rfl, by simp [SimpleURLLoaderWrapper.OnRetry, events]⟩

/-- The callback `OnComplete` on a wrapper in flight: one terminal event, then released. -/
theorem handle_complete (loader : SimpleURLLoader) (b : Bool) :
    (SimpleURLLoaderWrapper.create loader).handle (.OnComplete b) =
      some ({ loader_ := none, pinned_wrapper_ := false },
            [Output.emit (if b then Event.complete else Event.error loader.NetError)]) := by
  cases b <;> simp [SimpleURLLoaderWrapper.handle, SimpleURLLoaderWrapper.OnComplete,
    SimpleURLLoaderWrapper.create]

theorem map_viaLoader_not_direct (cs : List Callback) :
    ∀ i ∈ cs.map Input.viaLoader, i.isDirect = false := by
  intro i hi
  obtain ⟨c, _, rfl⟩ := List.mem_map.mp hi
  rfl

/-- The run of callbacks that come through the loader of a wrapper in
flight: up to the first `OnComplete` no terminal event and the wrapper stays
in flight; at the first `OnComplete` one terminal event, the last event of
the run, and the wrapper is released. -/
theorem run_callbacks (loader : SimpleURLLoader) (cs : List Callback) :
    ∃ s2 out, (SimpleURLLoaderWrapper.create loader).run (cs.map Input.viaLoader) =
        some (s2, out) ∧
      (terminalEvents (events out)).length = (if cs.any Callback.isComplete then 1 else 0) ∧
      (events out).dropLast.any Event.isTerminal = false ∧
      s2 = (if cs.any Callback.isComplete then { loader_ := none, pinned_wrapper_ := false }
            else SimpleURLLoaderWrapper.create loader) := by
  induction cs with
  | nil => exact ⟨_, [], rfl, rfl, rfl, rfl⟩
  | cons c rest ih =>
    cases hc : c.isComplete with
    | true =>
      cases c with
      | OnComplete b =>
        have hrel := run_released (rest.map Input.viaLoader) (map_viaLoader_not_direct rest)
        have hstep : (SimpleURLLoaderWrapper.create loader).step (.viaLoader (.OnComplete b)) =
            some ({ loader_ := none, pinned_wrapper_ := false },
              [Output.emit (if b then Event.complete else Event.error loader.NetError)]) := by
          have := handle_complete loader b
          simpa [SimpleURLLoaderWrapper.step, SimpleURLLoaderWrapper.create] using this
        refine ⟨_, _, wrapper_run_cons_some _ _ _ _ _ _ _ hstep hrel, ?_, ?_, ?_⟩
        · cases b <;> simp [events, terminalEvents, Event.isTerminal, Callback.isComplete]
        · simp [events]
        · simp [Callback.isComplete]
      | OnAuthRequired u f a r => simp [Callback.isComplete] at hc
      | OnResponseStarted u code => simp [Callback.isComplete] at hc
      | OnDataReceived d => simp [Callback.isComplete] at hc
      | OnRetry => simp [Callback.isComplete] at hc
    | false =>
      obtain ⟨out1, h1, h2⟩ := handle_not_complete (SimpleURLLoaderWrapper.create loader) c hc
      obtain ⟨s2, out, hr, hcount, hlast, hs2⟩ := ih
      have hstep : (SimpleURLLoaderWrapper.create loader).step (.viaLoader c) =
          some (SimpleURLLoaderWrapper.create loader, out1) := by
        simpa [SimpleURLLoaderWrapper.step, SimpleURLLoaderWrapper.create] using h1
      refine ⟨s2, out1 ++ out, wrapper_run_cons_some _ _ _ _ _ _ _ hstep hr, ?_, ?_, ?_⟩
      · have hf : (events out1).filter Event.isTerminal = [] := by
          simpa [List.filter_eq_nil_iff] using h2
        simp [events_append, terminalEvents, hf, hc] at hcount ⊢
        exact hcount
      · rw [events_append]
        by_cases hnil : events out = []
        · simp only [hnil, List.append_nil]
          have : ∀ e ∈ events out1, Event.isTerminal e = false := by simpa using h2
          simp only [List.any_eq_false]
          intro e he
          simpa using this e (List.dropLast_subset _ he)
        · rw [List.dropLast_append_of_ne_nil _ hnil, List.any_append, h2, hlast]
          rfl
      · simpa [hc] using hs2

/-! ### Lemmas on the request headers -/

/-- The loop from any starting headers. -/
theorem foldl_filter_validEntry
    (set : HttpRequestHeaders → String → String → HttpRequestHeaders)
    (l : List (String × String)) :
    ∀ acc : HttpRequestHeaders,
      l.foldl (fun headers it => if validEntry it then set headers it.1 it.2 else headers) acc =
      (l.filter validEntry).foldl
        (fun headers it => if validEntry it then set headers it.1 it.2 else headers) acc := by
  induction l with
  | nil => intro acc; rfl
  | cons e rest ih =>
    intro acc
    cases he : validEntry e with
    | true => simp [List.filter, he, ih]
    | false => simp [List.filter, he, ih]

/-- The setter `SetHeader` appends when no header has the name up to ASCII case. -/
theorem SetHeader_append (headers : HttpRequestHeaders) (key value : String)
    (h : ∀ e ∈ headers, EqualsCaseInsensitiveASCII key e.1 = false) :
    SetHeader headers key value = headers ++ [(key, value)] := by
  induction headers with
  | nil => rfl
  | cons e rest ih =>
    obtain ⟨k, v⟩ := e
    have hk : EqualsCaseInsensitiveASCII key k = false := h (k, v) (List.mem_cons_self _ _)
    have hrest : ∀ e ∈ rest, EqualsCaseInsensitiveASCII key e.1 = false := fun e he =>
      h e (List.mem_cons_of_mem _ he)
    simp [SetHeader, hk, ih hrest]

theorem foldl_SetHeader_distinct (l : List (String × String)) :
    ∀ acc : HttpRequestHeaders,
      (acc ++ l.filter validEntry).Pairwise
        (fun a b => EqualsCaseInsensitiveASCII b.1 a.1 = false) →
      l.foldl (fun headers it => if validEntry it then SetHeader headers it.1 it.2 else headers)
        acc = acc ++ l.filter validEntry := by
  induction l with
  | nil => intro acc _; simp
  | cons e rest ih =>
    intro acc hp
    cases he : validEntry e with
    | false =>
      have hp' : (acc ++ rest.filter validEntry).Pairwise
          (fun a b => EqualsCaseInsensitiveASCII b.1 a.1 = false) := by
        simpa [List.filter, he] using hp
      simp [List.filter, he, ih acc hp']
    | true =>
      have hp' : (acc ++ e :: rest.filter validEntry).Pairwise
          (fun a b => EqualsCaseInsensitiveASCII b.1 a.1 = false) := by
        simpa [List.filter, he] using hp
      have hfresh : ∀ x ∈ acc, EqualsCaseInsensitiveASCII e.1 x.1 = false := by
        intro x hx
        have := (List.pairwise_append.mp hp').2.2 x hx e (List.mem_cons_self _ _)
        exact this
      have hp'' : ((acc ++ [e]) ++ rest.filter validEntry).Pairwise
          (fun a b => EqualsCaseInsensitiveASCII b.1 a.1 = false) := by
        simpa [List.append_assoc] using hp'
      simp [List.filter, he, SetHeader_append acc e.1 e.2 hfresh, ih (acc ++ [e]) hp'']

/-- Every header after `SetHeader` has its name from the headers before or
from the key, and its value from the headers before or from the value. -/
theorem SetHeader_mem (headers : HttpRequestHeaders) (key value : String)
    (h : String × String) (hh : h ∈ SetHeader headers key value) :
    (h.1 = key ∨ ∃ x ∈ headers, x.1 = h.1) ∧ (h.2 = value ∨ ∃ x ∈ headers, x.2 = h.2) := by
  revert hh
  induction headers with
  | nil =>
    intro hh
    simp only [SetHeader, List.mem_singleton] at hh
    subst hh
    exact ⟨Or.inl rfl, Or.inl rfl⟩
  | cons e rest ih =>
    obtain ⟨k, v⟩ := e
    intro hh
    by_cases hk : EqualsCaseInsensitiveASCII key k = true
    · simp only [SetHeader, hk, if_true, List.mem_cons] at hh
      rcases hh with hh | hh
      · subst hh
        exact ⟨Or.inr ⟨(k, v), List.mem_cons_self _ _, rfl⟩, Or.inl rfl⟩
      · exact ⟨Or.inr ⟨h, List.mem_cons_of_mem _ hh, rfl⟩,
          Or.inr ⟨h, List.mem_cons_of_mem _ hh, rfl⟩⟩
    · have hk' : EqualsCaseInsensitiveASCII key k = false := by simpa using hk
      simp only [SetHeader, hk', Bool.false_eq_true, if_false, List.mem_cons] at hh
      rcases hh with hh | hh
      · subst hh
        exact ⟨Or.inr ⟨(k, v), List.mem_cons_self _ _, rfl⟩,
          Or.inr ⟨(k, v), List.mem_cons_self _ _, rfl⟩⟩
      · obtain ⟨h1, h2⟩ := ih hh
        refine ⟨?_, ?_⟩
        · rcases h1 with h1 | ⟨x, hx, hx1⟩
          · exact Or.inl h1
          · exact Or.inr ⟨x, List.mem_cons_of_mem _ hx, hx1⟩
        · rcases h2 with h2 | ⟨x, hx, hx2⟩
          · exact Or.inl h2
          · exact Or.inr ⟨x, List.mem_cons_of_mem _ hx, hx2⟩

/-- Every header the loop leaves has the name of a valid entry and the value
of a valid entry. -/
theorem foldl_SetHeader_mem (all : List (String × String)) (l : List (String × String)) :
    ∀ acc : HttpRequestHeaders, (∀ e ∈ l, e ∈ all) →
      (∀ h ∈ acc, (∃ e ∈ all, validEntry e = true ∧ e.1 = h.1) ∧
        (∃ e ∈ all, validEntry e = true ∧ e.2 = h.2)) →
      ∀ h ∈ l.foldl
          (fun headers it => if validEntry it then SetHeader headers it.1 it.2 else headers) acc,
        (∃ e ∈ all, validEntry e = true ∧ e.1 = h.1) ∧
        (∃ e ∈ all, validEntry e = true ∧ e.2 = h.2) := by
  induction l with
  | nil => intro acc _ hacc h hh; exact hacc h hh
  | cons e rest ih =>
    intro acc hl hacc
    have hrest : ∀ x ∈ rest, x ∈ all := fun x hx => hl x (List.mem_cons_of_mem _ hx)
    have he : e ∈ all := hl e (List.mem_cons_self _ _)
    cases hv : validEntry e with
    | false =>
      simp only [List.foldl, hv, Bool.false_eq_true, if_false]
      exact ih acc hrest hacc
    | true =>
      simp only [List.foldl, hv, if_true]
      apply ih (SetHeader acc e.1 e.2) hrest
      intro h hh
      obtain ⟨h1, h2⟩ := SetHeader_mem acc e.1 e.2 h hh
      refine ⟨?_, ?_⟩
      · rcases h1 with h1 | ⟨x, hx, hx1⟩
        · exact ⟨e, he, hv, h1.symm⟩
        · obtain ⟨y, hy, hyv, hy1⟩ := (hacc x hx).1
          exact ⟨y, hy, hyv, hy1.trans hx1⟩
      · rcases h2 with h2 | ⟨x, hx, hx2⟩
        · exact ⟨e, he, hv, h2.symm⟩
        · obtain ⟨y, hy, hyv, hy2⟩ := (hacc x hx).2
          exact ⟨y, hy, hyv, hy2.trans hx2⟩

/-! ## The claims -/

/-- C1: while a write is in flight (a `WriteChunk` returned a pending promise
and no `OnWriteChunkComplete` has run since, whatever else was called), every
further `WriteChunk` returns a rejected promise, whatever its argument, and
hands nothing to the transport; for an `ArrayBufferView` the message is
"Only one write can be pending at a time"; and the completion of the drain
with `MOJO_RESULT_OK` still resolves the first promise. -/
theorem C1_second_write_rejected (s s1 : JSChunkedDataPipeGetter) (v : V8Value)
    (r : WriteChunkResult) (mid : List Op)
    (hacc : s.WriteChunk v = some (s1, r)) (hpend : r.promise = .pending)
    (hmid : ∀ op ∈ mid, op.isComplete = false) :
    ∃ s2 fx, run s1 mid = some (s2, fx) ∧ transportWrites fx = [] ∧
      (∀ w, ∃ msg, s2.WriteChunk w = some (s2, { promise := .rejected msg, written := none })) ∧
      (∀ bytes, s2.WriteChunk (.arrayBufferView bytes) =
        some (s2, { promise := .rejected "Only one write can be pending at a time",
                    written := none })) ∧
      (s2.OnWriteChunkComplete MOJO_RESULT_OK).2 = .resolved ∧
      (s2.OnWriteChunkComplete MOJO_RESULT_OK).1.is_writing_ = false := by
  obtain ⟨hw, _, _⟩ := WriteChunk_pending_inv s s1 v r hacc hpend
  obtain ⟨s2, fx, h1, h2, h3⟩ := run_while_writing mid s1 hw hmid
  refine ⟨s2, fx, h1, h3, ?_, ?_, ?_, ?_⟩
  · intro w
    exact WriteChunk_rejects_while_writing s2 w h2
  · intro bytes
    exact WriteChunk_writing s2 bytes h2
  · simp [JSChunkedDataPipeGetter.OnWriteChunkComplete]
  · simp [JSChunkedDataPipeGetter.OnWriteChunkComplete]

/-- C1, at a getter with a size callback and a pipe: after `write([1, 2, 3])`
a `write` of a non-view, a `done()` and then any `write` are all rejected. -/
theorem C1_second_write_rejected_witness :
    JSChunkedDataPipeGetter.WriteChunk
        { size_callback_ := some ⟨1⟩, data_producer_ := some ⟨7⟩ } (.arrayBufferView [1, 2, 3]) =
      some ({ size_callback_ := some ⟨1⟩, data_producer_ := some ⟨7⟩, is_writing_ := true,
              bytes_written_ := 3 },
            { promise := .pending, written := some (⟨7⟩, BufferDataSource.create [1, 2, 3]) }) ∧
    (∀ op ∈ [Op.WriteChunk .other, Op.Done], op.isComplete = false) ∧
    ∃ s2 fx,
      run { size_callback_ := some ⟨1⟩, data_producer_ := some ⟨7⟩, is_writing_ := true,
            bytes_written_ := 3 } [Op.WriteChunk .other, Op.Done] = some (s2, fx) ∧
      transportWrites fx = [] ∧
      (∀ w, ∃ msg, s2.WriteChunk w = some (s2, { promise := .rejected msg, written := none })) ∧
      (∀ bytes, s2.WriteChunk (.arrayBufferView bytes) =
        some (s2, { promise := .rejected "Only one write can be pending at a time",
                    written := none })) ∧
      (s2.OnWriteChunkComplete MOJO_RESULT_OK).2 = .resolved ∧
      (s2.OnWriteChunkComplete MOJO_RESULT_OK).1.is_writing_ = false :=
  ⟨by decide, by decide,
   C1_second_write_rejected
     { size_callback_ := some ⟨1⟩, data_producer_ := some ⟨7⟩ }
     { size_callback_ := some ⟨1⟩, data_producer_ := some ⟨7⟩, is_writing_ := true,
       bytes_written_ := 3 }
     (.arrayBufferView [1, 2, 3])
     { promise := .pending, written := some (⟨7⟩, BufferDataSource.create [1, 2, 3]) }
     [Op.WriteChunk .other, Op.Done]
     (by decide) rfl (by decide)⟩

/-- C2: on a fresh getter, after `GetSize(cb)` and `StartReading`, writing each
chunk of any list and completing each drain with `MOJO_RESULT_OK` before the
next write reports no size; `Done` called once or more then runs the size
callback exactly once, on the first `Done`, with `net::OK` and the sum of the
chunk lengths modulo `2 ^ 64`. -/
theorem C2_size_reported_once_on_done (cb : GetSizeCallback) (pipe : Nat)
    (chunks : List (List Nat)) (n : Nat) :
    run JSChunkedDataPipeGetter.fresh
        (Op.GetSize cb :: Op.StartReading pipe true :: writeAll chunks) =
      some ({ size_callback_ := some cb, data_producer_ := some ⟨pipe⟩, is_writing_ := false,
              bytes_written_ := totalLength chunks % UINT64_SIZE },
            Effect.bodyFuncCalled :: writeAllEffects ⟨pipe⟩ chunks) ∧
    sizeReports (Effect.bodyFuncCalled :: writeAllEffects ⟨pipe⟩ chunks) = [] ∧
    run JSChunkedDataPipeGetter.fresh
        (Op.GetSize cb :: Op.StartReading pipe true :: writeAll chunks ++ [Op.Done]) =
      some ({ size_callback_ := none, data_producer_ := some ⟨pipe⟩, is_writing_ := false,
              bytes_written_ := totalLength chunks % UINT64_SIZE },
            Effect.bodyFuncCalled :: writeAllEffects ⟨pipe⟩ chunks ++
              [Effect.sizeCallbackRun cb net_OK (totalLength chunks % UINT64_SIZE)]) ∧
    run JSChunkedDataPipeGetter.fresh
        (Op.GetSize cb :: Op.StartReading pipe true :: writeAll chunks ++
          List.replicate (n + 1) Op.Done) =
      some ({ size_callback_ := none, data_producer_ := some ⟨pipe⟩, is_writing_ := false,
              bytes_written_ := totalLength chunks % UINT64_SIZE },
            Effect.bodyFuncCalled :: writeAllEffects ⟨pipe⟩ chunks ++
              [Effect.sizeCallbackRun cb net_OK (totalLength chunks % UINT64_SIZE)]) := by
  have hw := run_writeAll cb ⟨pipe⟩ chunks 0 (by simp [UINT64_SIZE])
  rw [Nat.zero_add] at hw
  have hd : run { size_callback_ := some cb, data_producer_ := some ⟨pipe⟩, is_writing_ := false,
                  bytes_written_ := totalLength chunks % UINT64_SIZE } [Op.Done] =
      some ({ size_callback_ := none, data_producer_ := some ⟨pipe⟩, is_writing_ := false,
              bytes_written_ := totalLength chunks % UINT64_SIZE },
            [Effect.sizeCallbackRun cb net_OK (totalLength chunks % UINT64_SIZE)]) := by
    simp [run, step, JSChunkedDataPipeGetter.Done]
  have hdn : run { size_callback_ := some cb, data_producer_ := some ⟨pipe⟩, is_writing_ := false,
                   bytes_written_ := totalLength chunks % UINT64_SIZE }
        (List.replicate (n + 1) Op.Done) =
      some ({ size_callback_ := none, data_producer_ := some ⟨pipe⟩, is_writing_ := false,
              bytes_written_ := totalLength chunks % UINT64_SIZE },
            [Effect.sizeCallbackRun cb net_OK (totalLength chunks % UINT64_SIZE)]) := by
    have := run_replicate_Done_without_callback
      { size_callback_ := none, data_producer_ := some ⟨pipe⟩, is_writing_ := false,
        bytes_written_ := totalLength chunks % UINT64_SIZE } rfl n
    simp [List.replicate_succ, run, step, JSChunkedDataPipeGetter.Done, this]
  have hpre : ∀ (ops : List Op) (s2 : JSChunkedDataPipeGetter) (fx2 : List Effect),
      run { size_callback_ := some cb, data_producer_ := some ⟨pipe⟩, is_writing_ := false,
            bytes_written_ := totalLength chunks % UINT64_SIZE } ops = some (s2, fx2) →
      run JSChunkedDataPipeGetter.fresh
        (Op.GetSize cb :: Op.StartReading pipe true :: writeAll chunks ++ ops) =
        some (s2, Effect.bodyFuncCalled :: writeAllEffects ⟨pipe⟩ chunks ++ fx2) := by
    intro ops s2 fx2 h
    have h2 := run_append (writeAll chunks) ops _ _ s2 _ fx2 hw h
    simp [run, step, JSChunkedDataPipeGetter.fresh, JSChunkedDataPipeGetter.GetSize,
      JSChunkedDataPipeGetter.StartReading, h2]
  refine ⟨?_, ?_, hpre _ _ _ hd, hpre _ _ _ hdn⟩
  · have := hpre [] _ _ rfl
    simpa using this
  · simp [sizeReports, sizeReports_writeAllEffects]

/-- C3, as amended: once `Done` has been called, and as long as `GetSize` is
not called again, every `WriteChunk` returns a rejected promise, whatever its
argument and whatever was called before `Done` or between `Done` and the
write (`StartReading`, write completions, further `write` and `done`). -/
theorem C3_write_after_done_rejected (s : JSChunkedDataPipeGetter) (mid : List Op)
    (v : V8Value) (hmid : ∀ op ∈ mid, op.isGetSize = false) :
    ∃ s2 fx, run s.Done.1 mid = some (s2, fx) ∧
      ∃ msg, s2.WriteChunk v = some (s2, { promise := .rejected msg, written := none }) := by
  have hnone : s.Done.1.size_callback_ = none := by
    cases hc : s.size_callback_ <;> simp [JSChunkedDataPipeGetter.Done, hc]
  obtain ⟨s2, fx, h1, h2, _, _⟩ := run_without_callback mid s.Done.1 hnone hmid
  exact ⟨s2, fx, h1, WriteChunk_rejects_without_callback s2 v h2⟩

/-- C3, amended, at a getter with a size callback and a pipe: `done()`, then a
failed completion and a second `StartReading`, then `write([65])`. -/
theorem C3_write_after_done_rejected_witness :
    (∀ op ∈ [Op.OnWriteChunkComplete 1, Op.StartReading 8 true], op.isGetSize = false) ∧
    ∃ s2 fx,
      run (JSChunkedDataPipeGetter.Done
            { size_callback_ := some ⟨1⟩, data_producer_ := some ⟨7⟩ }).1
          [Op.OnWriteChunkComplete 1, Op.StartReading 8 true] = some (s2, fx) ∧
      ∃ msg, s2.WriteChunk (.arrayBufferView [65]) =
        some (s2, { promise := .rejected msg, written := none }) :=
  ⟨by decide,
   C3_write_after_done_rejected { size_callback_ := some ⟨1⟩, data_producer_ := some ⟨7⟩ }
     [Op.OnWriteChunkComplete 1, Op.StartReading 8 true] (.arrayBufferView [65]) (by decide)⟩

/-- C3, as stated, fails: `Done` has been called, a `GetSize` after it
installs a size callback again, and the write that follows is accepted: its
promise is pending, not rejected, and the chunk goes to the transport. -/
theorem C3_counterexample :
    ∃ s2 fx,
      run JSChunkedDataPipeGetter.fresh
          [Op.GetSize ⟨1⟩, Op.StartReading 7 true, Op.Done, Op.GetSize ⟨2⟩] = some (s2, fx) ∧
      sizeReports fx = [(⟨1⟩, net_OK, 0)] ∧
      ∃ s3 r, s2.WriteChunk (.arrayBufferView [65]) = some (s3, r) ∧
        r.promise = .pending ∧ r.promise.isRejected = false ∧
        r.written = some (⟨7⟩, BufferDataSource.create [65]) ∧
        s3.is_writing_ = true ∧ s3.bytes_written_ = 1 :=
  ⟨{ size_callback_ := some ⟨2⟩, data_producer_ := some ⟨7⟩ },
   [Effect.bodyFuncCalled, Effect.sizeCallbackRun ⟨1⟩ net_OK 0], by decide, by decide,
   { size_callback_ := some ⟨2⟩, data_producer_ := some ⟨7⟩, is_writing_ := true,
     bytes_written_ := 1 },
   { promise := .pending, written := some (⟨7⟩, BufferDataSource.create [65]) },
   by decide, rfl, rfl, rfl, rfl, rfl⟩

/-- C4: when the drain of a write completes with a result other than
`MOJO_RESULT_OK`, `OnWriteChunkComplete` rejects the promise of that write,
clears the in-progress flag and drops the size callback without running it;
a `Done` after it reports nothing, and so does every later call as long as
`GetSize` is not called again. -/
theorem C4_failed_drain_discards_size_callback (s : JSChunkedDataPipeGetter) (result : Nat)
    (ops : List Op) (hres : result ≠ MOJO_RESULT_OK)
    (hops : ∀ op ∈ ops, op.isGetSize = false) :
    step s (.OnWriteChunkComplete result) =
      some ({ s with is_writing_ := false, size_callback_ := none },
            [Effect.promiseSettled (.rejected "mojo result not ok")]) ∧
    JSChunkedDataPipeGetter.Done { s with is_writing_ := false, size_callback_ := none } =
      ({ s with is_writing_ := false, size_callback_ := none }, []) ∧
    ∃ s2 fx, run { s with is_writing_ := false, size_callback_ := none } ops = some (s2, fx) ∧
      sizeReports fx = [] ∧ s2.size_callback_ = none := by
  refine ⟨?_, ?_, ?_⟩
  · simp [step, JSChunkedDataPipeGetter.OnWriteChunkComplete, hres]
  · simp [JSChunkedDataPipeGetter.Done]
  · obtain ⟨s2, fx, h1, h2, h3, _⟩ :=
      run_without_callback ops { s with is_writing_ := false, size_callback_ := none } rfl hops
    exact ⟨s2, fx, h1, h3, h2⟩

/-- C4, at a getter with a write in flight whose drain fails with result `2`,
followed by `done()`, a `write` and a second `done()`. -/
theorem C4_failed_drain_discards_size_callback_witness :
    (2 ≠ MOJO_RESULT_OK) ∧
    (∀ op ∈ [Op.Done, Op.WriteChunk (.arrayBufferView [1]), Op.Done], op.isGetSize = false) ∧
    step { size_callback_ := some ⟨1⟩, data_producer_ := some ⟨7⟩, is_writing_ := true,
           bytes_written_ := 3 } (.OnWriteChunkComplete 2) =
      some ({ size_callback_ := none, data_producer_ := some ⟨7⟩, is_writing_ := false,
              bytes_written_ := 3 },
            [Effect.promiseSettled (.rejected "mojo result not ok")]) ∧
    JSChunkedDataPipeGetter.Done
        { size_callback_ := none, data_producer_ := some ⟨7⟩, is_writing_ := false,
          bytes_written_ := 3 } =
      ({ size_callback_ := none, data_producer_ := some ⟨7⟩, is_writing_ := false,
         bytes_written_ := 3 }, []) ∧
    ∃ s2 fx,
      run { size_callback_ := none, data_producer_ := some ⟨7⟩, is_writing_ := false,
            bytes_written_ := 3 }
          [Op.Done, Op.WriteChunk (.arrayBufferView [1]), Op.Done] = some (s2, fx) ∧
      sizeReports fx = [] ∧ s2.size_callback_ = none :=
  ⟨by decide, by decide,
   C4_failed_drain_discards_size_callback
     { size_callback_ := some ⟨1⟩, data_producer_ := some ⟨7⟩, is_writing_ := true,
       bytes_written_ := 3 } 2
     [Op.Done, Op.WriteChunk (.arrayBufferView [1]), Op.Done] (by decide) (by decide)⟩

/-- C5, as amended: for every `extraHeaders` map, the entries that the loop
hands to `SetHeader` are exactly the entries whose name satisfies
`IsValidHeaderName` and whose value satisfies `IsValidHeaderValue`, in the
order of the map, whatever the setter does with them; the failing entries
have no effect on the headers of the request, and every header of the request
has the name of a valid entry and the value of a valid entry.  When no two
valid entries have names that are equal up to ASCII case, the headers of the
request are exactly the valid entries, each with its value, in the order of
the map. -/
theorem C5_valid_headers_kept (extra_headers : List (String × String)) :
    (∀ set : HttpRequestHeaders → String → String → HttpRequestHeaders,
      headersLoop set extra_headers =
        (extra_headers.filter
            (fun it => IsValidHeaderName it.1 && IsValidHeaderValue it.2)).foldl
          (fun headers it => set headers it.1 it.2) []) ∧
    NewRequestHeaders extra_headers =
      NewRequestHeaders
        (extra_headers.filter (fun it => IsValidHeaderName it.1 && IsValidHeaderValue it.2)) ∧
    (∀ h ∈ NewRequestHeaders extra_headers,
      (∃ e ∈ extra_headers,
        IsValidHeaderName e.1 = true ∧ IsValidHeaderValue e.2 = true ∧ e.1 = h.1) ∧
      (∃ e ∈ extra_headers,
        IsValidHeaderName e.1 = true ∧ IsValidHeaderValue e.2 = true ∧ e.2 = h.2)) ∧
    ((extra_headers.filter
          (fun it => IsValidHeaderName it.1 && IsValidHeaderValue it.2)).Pairwise
        (fun a b => EqualsCaseInsensitiveASCII b.1 a.1 = false) →
      NewRequestHeaders extra_headers =
        extra_headers.filter
          (fun it => IsValidHeaderName it.1 && IsValidHeaderValue it.2)) := by
  change (∀ set : HttpRequestHeaders → String → String → HttpRequestHeaders,
      headersLoop set extra_headers =
        (extra_headers.filter validEntry).foldl (fun headers it => set headers it.1 it.2) []) ∧
    NewRequestHeaders extra_headers = NewRequestHeaders (extra_headers.filter validEntry) ∧
    (∀ h ∈ NewRequestHeaders extra_headers,
      (∃ e ∈ extra_headers,
        IsValidHeaderName e.1 = true ∧ IsValidHeaderValue e.2 = true ∧ e.1 = h.1) ∧
      (∃ e ∈ extra_headers,
        IsValidHeaderName e.1 = true ∧ IsValidHeaderValue e.2 = true ∧ e.2 = h.2)) ∧
    ((extra_headers.filter validEntry).Pairwise
        (fun a b => EqualsCaseInsensitiveASCII b.1 a.1 = false) →
      NewRequestHeaders extra_headers = extra_headers.filter validEntry)
  refine ⟨?_, ?_, ?_, ?_⟩
  · intro set
    simp only [headersLoop]
    rw [foldl_filter_validEntry set extra_headers []]
    generalize ([] : HttpRequestHeaders) = acc
    have hall : ∀ e ∈ extra_headers.filter validEntry, validEntry e = true := fun e he =>
      (List.mem_filter.mp he).2
    revert hall
    generalize extra_headers.filter validEntry = l
    intro hall
    induction l generalizing acc with
    | nil => rfl
    | cons e rest ih =>
      have he : validEntry e = true := hall e (List.mem_cons_self _ _)
      simp only [List.foldl, he, if_true]
      exact ih _ (fun x hx => hall x (List.mem_cons_of_mem _ hx))
  · simp only [NewRequestHeaders, headersLoop]
    rw [foldl_filter_validEntry SetHeader extra_headers []]
  · intro h hh
    have := foldl_SetHeader_mem extra_headers extra_headers [] (fun e he => he)
      (by intro x hx; simp at hx) h (by simpa [NewRequestHeaders, headersLoop] using hh)
    obtain ⟨⟨e1, he1, hv1, hn⟩, ⟨e2, he2, hv2, hvv⟩⟩ := this
    simp only [validEntry, Bool.and_eq_true] at hv1 hv2
    exact ⟨⟨e1, he1, hv1.1, hv1.2, hn⟩, ⟨e2, he2, hv2.1, hv2.2, hvv⟩⟩
  · intro hdistinct
    have := foldl_SetHeader_distinct extra_headers [] (by simpa using hdistinct)
    simpa [NewRequestHeaders, headersLoop] using this

/-- C5, amended, at three maps.  With the entries "Bad Name": "v" and
"X-Test": "v" the request carries `X-Test: v` only.  With a failing name and
a failing value ("X-Bad": a value with a line feed) next to "X-Test": "v" the
request again carries `X-Test: v` only.  With "A": "1", "Bad Name": "v" and
"a": "2", where two valid names are equal up to case, "Bad Name" is still
excluded: the headers are those of the map without it. -/
theorem C5_valid_headers_kept_witness :
    (([("Bad Name", "v"), ("X-Test", "v")].filter
          (fun it => IsValidHeaderName it.1 && IsValidHeaderValue it.2)).Pairwise
        (fun a b => EqualsCaseInsensitiveASCII b.1 a.1 = false) ∧
      [("Bad Name", "v"), ("X-Test", "v")].filter
          (fun it => IsValidHeaderName it.1 && IsValidHeaderValue it.2) = [("X-Test", "v")] ∧
      NewRequestHeaders [("Bad Name", "v"), ("X-Test", "v")] =
        [("Bad Name", "v"), ("X-Test", "v")].filter
          (fun it => IsValidHeaderName it.1 && IsValidHeaderValue it.2)) ∧
    ([("Bad Name", "v"), ("X-Bad", "a\nb"), ("X-Test", "v")].filter
          (fun it => IsValidHeaderName it.1 && IsValidHeaderValue it.2) = [("X-Test", "v")] ∧
      NewRequestHeaders [("Bad Name", "v"), ("X-Bad", "a\nb"), ("X-Test", "v")] =
        [("Bad Name", "v"), ("X-Bad", "a\nb"), ("X-Test", "v")].filter
          (fun it => IsValidHeaderName it.1 && IsValidHeaderValue it.2)) ∧
    ([("A", "1"), ("Bad Name", "v"), ("a", "2")].filter
          (fun it => IsValidHeaderName it.1 && IsValidHeaderValue it.2) =
        [("A", "1"), ("a", "2")] ∧
      NewRequestHeaders [("A", "1"), ("Bad Name", "v"), ("a", "2")] =
        NewRequestHeaders
          ([("A", "1"), ("Bad Name", "v"), ("a", "2")].filter
            (fun it => IsValidHeaderName it.1 && IsValidHeaderValue it.2))) :=
  ⟨⟨by decide, by decide,
     (C5_valid_headers_kept [("Bad Name", "v"), ("X-Test", "v")]).2.2.2 (by decide)⟩,
   ⟨by decide,
     (C5_valid_headers_kept [("Bad Name", "v"), ("X-Bad", "a\nb"), ("X-Test", "v")]).2.2.2
       (by decide)⟩,
   ⟨by decide, (C5_valid_headers_kept [("A", "1"), ("Bad Name", "v"), ("a", "2")]).2.1⟩⟩

/-- C5, as stated, fails: the map with the entries "A": "1" and "a": "2" has
two valid entries, and the request carries the single header `A: 2`, which
is neither of them. -/
theorem C5_counterexample :
    isStdMap [("A", "1"), ("a", "2")] = true ∧
    [("A", "1"), ("a", "2")].filter validEntry = [("A", "1"), ("a", "2")] ∧
    NewRequestHeaders [("A", "1"), ("a", "2")] = [("A", "2")] ∧
    NewRequestHeaders [("A", "1"), ("a", "2")] ≠ [("A", "1"), ("a", "2")].filter validEntry := by
  decide

/-- C6, as amended: for every sequence of callbacks that the engine sends
through the owned loader of a request in flight, the run is defined and at
most one terminal event is emitted: exactly one when the sequence holds an
`OnComplete`, none otherwise.  A terminal event is the last event of the run
(no event follows it).  `OnComplete(true)` emits `complete`,
`OnComplete(false)` emits `error`, and either releases the loader and the
pin, which is where the run ends when the sequence holds an `OnComplete`. -/
theorem C6_at_most_one_terminal_event (loader : SimpleURLLoader) (cs : List Callback) :
    (∃ s2 out, (SimpleURLLoaderWrapper.create loader).run (cs.map Input.viaLoader) =
        some (s2, out) ∧
      (terminalEvents (events out)).length = (if cs.any Callback.isComplete then 1 else 0) ∧
      (events out).dropLast.any Event.isTerminal = false ∧
      s2 = (if cs.any Callback.isComplete then { loader_ := none, pinned_wrapper_ := false }
            else SimpleURLLoaderWrapper.create loader)) ∧
    (SimpleURLLoaderWrapper.create loader).step (.viaLoader (.OnComplete true)) =
      some ({ loader_ := none, pinned_wrapper_ := false }, [Output.emit .complete]) ∧
    (SimpleURLLoaderWrapper.create loader).step (.viaLoader (.OnComplete false)) =
      some ({ loader_ := none, pinned_wrapper_ := false },
            [Output.emit (.error loader.NetError)]) := by
  refine ⟨run_callbacks loader cs, ?_, ?_⟩
  · simp [SimpleURLLoaderWrapper.step, SimpleURLLoaderWrapper.create,
      SimpleURLLoaderWrapper.handle, SimpleURLLoaderWrapper.OnComplete]
  · simp [SimpleURLLoaderWrapper.step, SimpleURLLoaderWrapper.create,
      SimpleURLLoaderWrapper.handle, SimpleURLLoaderWrapper.OnComplete]

/-- C6, as stated, fails: a request whose loader has delivered
`OnResponseStarted` and no `OnComplete` has emitted no terminal event, and
when it is cancelled there it never emits one, whatever the engine sends
afterwards. -/
theorem C6_counterexample :
    (∃ s2 out,
      (SimpleURLLoaderWrapper.create ⟨0⟩).run
          ([Callback.OnResponseStarted "https://example.org/" 200].map Input.viaLoader) =
        some (s2, out) ∧
      events out = [Event.responseStarted "https://example.org/" 200] ∧
      (terminalEvents (events out)).length ≠ 1) ∧
    (∃ s2 out,
      (SimpleURLLoaderWrapper.create ⟨0⟩).run
          [.viaLoader (.OnResponseStarted "https://example.org/" 200), .Cancel,
           .viaLoader (.OnComplete true)] =
        some (s2, out) ∧
      s2.loader_ = none ∧
      events out = [Event.responseStarted "https://example.org/" 200] ∧
      (terminalEvents (events out)).length ≠ 1) :=
  ⟨⟨SimpleURLLoaderWrapper.create ⟨0⟩,
      [Output.emit (.responseStarted "https://example.org/" 200)], by decide, by decide,
      by decide⟩,
   ⟨{ loader_ := none, pinned_wrapper_ := false },
      [Output.emit (.responseStarted "https://example.org/" 200)], by decide, rfl, by decide,
      by decide⟩⟩

/-- C7: `Cancel`, on whatever state the inputs before it have led to,
releases the loader and the pin and emits nothing, and no input after it that
comes through the owned loader (or is a further `Cancel`) emits anything:
the outputs of the whole run are those of the inputs before `Cancel`. -/
theorem C7_cancel_silences (s0 s : SimpleURLLoaderWrapper) (pre post : List Input)
    (out : List Output) (hpre : s0.run pre = some (s, out))
    (hpost : ∀ i ∈ post, i.isDirect = false) :
    s.step .Cancel = some ({ loader_ := none, pinned_wrapper_ := false }, []) ∧
    s0.run (pre ++ Input.Cancel :: post) =
      some ({ loader_ := none, pinned_wrapper_ := false }, out) := by
  have hstep : s.step .Cancel = some ({ loader_ := none, pinned_wrapper_ := false }, []) := by
    simp [SimpleURLLoaderWrapper.step, SimpleURLLoaderWrapper.Cancel]
  refine ⟨hstep, ?_⟩
  have h2 := wrapper_run_cons_some s _ _ Input.Cancel post [] [] hstep (run_released post hpost)
  have := wrapper_run_append pre (Input.Cancel :: post) s0 s _ out _ hpre h2
  simpa using this

/-- C7, for a request cancelled after `response-started`: the data, the
completions and the challenge that the engine sends afterwards emit nothing. -/
theorem C7_cancel_silences_witness :
    (SimpleURLLoaderWrapper.create ⟨0⟩).run
        [.viaLoader (.OnResponseStarted "https://example.org/" 200)] =
      some (SimpleURLLoaderWrapper.create ⟨0⟩,
            [Output.emit (.responseStarted "https://example.org/" 200)]) ∧
    (∀ i ∈ [Input.viaLoader (.OnDataReceived [1, 2]),
            .viaLoader (.OnAuthRequired "https://example.org/" true ⟨5⟩ ⟨6⟩),
            .viaLoader (.OnComplete true), .viaLoader (.OnComplete false)],
        i.isDirect = false) ∧
    (SimpleURLLoaderWrapper.create ⟨0⟩).step .Cancel =
      some ({ loader_ := none, pinned_wrapper_ := false }, []) ∧
    (SimpleURLLoaderWrapper.create ⟨0⟩).run
        ([.viaLoader (.OnResponseStarted "https://example.org/" 200)] ++ Input.Cancel ::
          [.viaLoader (.OnDataReceived [1, 2]),
           .viaLoader (.OnAuthRequired "https://example.org/" true ⟨5⟩ ⟨6⟩),
           .viaLoader (.OnComplete true), .viaLoader (.OnComplete false)]) =
      some ({ loader_ := none, pinned_wrapper_ := false },
            [Output.emit (.responseStarted "https://example.org/" 200)]) :=
  ⟨by decide, by decide,
   C7_cancel_silences (SimpleURLLoaderWrapper.create ⟨0⟩) (SimpleURLLoaderWrapper.create ⟨0⟩)
     [.viaLoader (.OnResponseStarted "https://example.org/" 200)]
     [.viaLoader (.OnDataReceived [1, 2]),
           .viaLoader (.OnAuthRequired "https://example.org/" true ⟨5⟩ ⟨6⟩),
      .viaLoader (.OnComplete true), .viaLoader (.OnComplete false)]
     [Output.emit (.responseStarted "https://example.org/" 200)] (by decide) (by decide)⟩

/-- C8: `OnAuthRequired` emits one `login` event, with the challenge info and
a callback bound to the responder, and changes nothing else; however often
that callback is then run, the responder gets exactly one call, made by the
first run: the credentials when the first two arguments are a username and a
password, and a decline otherwise, as when no argument or only the username
is given. -/
theorem C8_login_callback_signals_once (s : SimpleURLLoaderWrapper) (url : String)
    (first_auth_attempt : Bool) (auth_info : AuthChallengeInfo)
    (responder : AuthChallengeResponder)
    (args : List V8Value) (more : List (List V8Value)) (username password : String)
    (rest : List V8Value) :
    s.OnAuthRequired url first_auth_attempt auth_info responder =
      (s, [Output.emit (.login auth_info { cb := some responder })]) ∧
    LoginCallback.RunAll { cb := some responder } (args :: more) =
      [loginCallbackBody responder args] ∧
    loginCallbackBody responder (.string username :: .string password :: rest) =
      { responder := responder, credentials := some (username, password) } ∧
    loginCallbackBody responder [] = { responder := responder, credentials := none } ∧
    loginCallbackBody responder [.string username] =
      { responder := responder, credentials := none } ∧
    loginCallbackBody responder args =
      { responder := responder,
        credentials := match args with
          | .string u :: .string p :: _ => some (u, p)
          | _ => none } := by
  have hnone : ∀ l : List (List V8Value), LoginCallback.RunAll { cb := none } l = [] := by
    intro l
    induction l with
    | nil => rfl
    | cons a l ih => simpa [LoginCallback.RunAll, LoginCallback.Run] using ih
  refine ⟨rfl, ?_, rfl, rfl, rfl, ?_⟩
  · simp [LoginCallback.RunAll, LoginCallback.Run, hnone]
  · match args with
    | [] => rfl
    | [.string _] => rfl
    | [.arrayBufferView _] => rfl
    | [.other] => rfl
    | .arrayBufferView _ :: _ :: _ => rfl
    | .other :: _ :: _ => rfl
    | .string _ :: .string _ :: _ => rfl
    | .string _ :: .arrayBufferView _ :: _ => rfl
    | .string _ :: .other :: _ => rfl

/-- C9: a `WriteChunk` whose argument is not an `ArrayBufferView`, or that
comes while a write is in flight, or while no size callback is pending,
returns a rejected promise and the object unchanged (flag, counter, size
callback and producer as before), hands nothing to the transport, and every
sequence of later calls runs as it would have run without that call. -/
theorem C9_rejected_write_changes_nothing (s : JSChunkedDataPipeGetter) (v : V8Value)
    (ops : List Op)
    (h : v.IsArrayBufferView = false ∨ s.is_writing_ = true ∨ s.size_callback_ = none) :
    ∃ msg, s.WriteChunk v = some (s, { promise := .rejected msg, written := none }) ∧
      step s (.WriteChunk v) = some (s, [Effect.promiseReturned (.rejected msg)]) ∧
      run s (.WriteChunk v :: ops) =
        (run s ops).map (fun q => (q.1, Effect.promiseReturned (.rejected msg) :: q.2)) := by
  have hrej : ∃ msg, s.WriteChunk v = some (s, { promise := .rejected msg, written := none }) := by
    rcases h with h | h | h
    · exact ⟨_, WriteChunk_not_view s v h⟩
    · exact WriteChunk_rejects_while_writing s v h
    · exact WriteChunk_rejects_without_callback s v h
  obtain ⟨msg, hm⟩ := hrej
  refine ⟨msg, hm, by simp [step, hm], ?_⟩
  cases hr : run s ops with
  | none => simp [run, step, hm, hr]
  | some q => simp [run, step, hm, hr]

/-- C9, at a getter with a write of 3 bytes in flight: a second `write` is
rejected, and the completion and `done()` after it report 3 bytes as they
would have without it. -/
theorem C9_rejected_write_changes_nothing_witness :
    (V8Value.IsArrayBufferView (.arrayBufferView [9, 9]) = false ∨
      JSChunkedDataPipeGetter.is_writing_
        { size_callback_ := some ⟨1⟩, data_producer_ := some ⟨7⟩, is_writing_ := true,
          bytes_written_ := 3 } = true ∨
      JSChunkedDataPipeGetter.size_callback_
        { size_callback_ := some ⟨1⟩, data_producer_ := some ⟨7⟩, is_writing_ := true,
          bytes_written_ := 3 } = none) ∧
    ∃ msg,
      JSChunkedDataPipeGetter.WriteChunk
          { size_callback_ := some ⟨1⟩, data_producer_ := some ⟨7⟩, is_writing_ := true,
            bytes_written_ := 3 } (.arrayBufferView [9, 9]) =
        some ({ size_callback_ := some ⟨1⟩, data_producer_ := some ⟨7⟩, is_writing_ := true,
                bytes_written_ := 3 },
              { promise := .rejected msg, written := none }) ∧
      step { size_callback_ := some ⟨1⟩, data_producer_ := some ⟨7⟩, is_writing_ := true,
             bytes_written_ := 3 } (.WriteChunk (.arrayBufferView [9, 9])) =
        some ({ size_callback_ := some ⟨1⟩, data_producer_ := some ⟨7⟩, is_writing_ := true,
                bytes_written_ := 3 },
              [Effect.promiseReturned (.rejected msg)]) ∧
      run { size_callback_ := some ⟨1⟩, data_producer_ := some ⟨7⟩, is_writing_ := true,
            bytes_written_ := 3 }
          (.WriteChunk (.arrayBufferView [9, 9]) :: [Op.OnWriteChunkComplete 0, Op.Done]) =
        (run { size_callback_ := some ⟨1⟩, data_producer_ := some ⟨7⟩, is_writing_ := true,
               bytes_written_ := 3 }
             [Op.OnWriteChunkComplete 0, Op.Done]).map
          (fun q => (q.1, Effect.promiseReturned (.rejected msg) :: q.2)) :=
  ⟨Or.inr (Or.inl rfl),
   C9_rejected_write_changes_nothing
     { size_callback_ := some ⟨1⟩, data_producer_ := some ⟨7⟩, is_writing_ := true,
       bytes_written_ := 3 }
     (.arrayBufferView [9, 9]) [Op.OnWriteChunkComplete 0, Op.Done] (Or.inr (Or.inl rfl))⟩

/-- C10, where the code departs from the claim: for a `BufferDataSource`
built from the bytes `b`, `GetLength` is the length of `b`.  For `offset`
below the length of `b`, `Read(offset, dest)` returns `MOJO_RESULT_OK` with
`bytes_read` the smaller of the bytes left and the capacity of `dest`, and
`dest` starts with that many bytes of `b` from `offset` on, the rest of
`dest` untouched, with no access outside `b` or `dest`; for `offset` above
the length it returns `MOJO_RESULT_OUT_OF_RANGE`, zero bytes read and `dest`
untouched; and a reader that stops at `GetLength()` gets `b` back through a
span of any positive capacity.  But for `offset` equal to the length of `b`,
which the claim covers and the test of line 38 admits, `Read` indexes
`buffer_` at its size: so does every `Read` at the end of a chunk, and the
first `Read` of an empty chunk. -/
theorem C10_buffer_data_source_read (b dest : List Nat) (offset c extra : Nat) :
    (BufferDataSource.create b).GetLength = b.length ∧
    (BufferDataSource.create b).Read offset dest =
      (if offset < b.length then
        some ({ result := MOJO_RESULT_OK,
                bytes_read := min (b.length - offset) dest.length },
              (b.drop offset).take (min (b.length - offset) dest.length) ++
                dest.drop (min (b.length - offset) dest.length))
      else if offset = b.length then none
      else some ({ result := MOJO_RESULT_OUT_OF_RANGE, bytes_read := 0 }, dest)) ∧
    (BufferDataSource.create b).Read b.length dest = none ∧
    (BufferDataSource.create []).Read 0 dest = none ∧
    elementAddress (BufferDataSource.create b).buffer_ b.length = none ∧
    readAll (BufferDataSource.create b) (c + 1) (b.length + extra) 0 = b := by
  have hend : (BufferDataSource.create b).Read b.length dest = none := by
    have := Read_at_end (BufferDataSource.create b) dest
    simpa [create_buffer] using this
  refine ⟨?_, ?_, hend, ?_, ?_, ?_⟩
  · simp [BufferDataSource.GetLength, create_buffer]
  · by_cases h : offset < b.length
    · have := Read_in_range (BufferDataSource.create b) offset dest
        (by simpa [create_buffer] using h)
      simpa [create_buffer, h] using this
    · by_cases he : offset = b.length
      · subst he
        simp [hend]
      · have hgt : b.length < offset := by omega
        have := Read_past_end (BufferDataSource.create b) offset dest
          (by simpa [create_buffer] using hgt)
        simpa [h, he] using this
  · have := Read_at_end (BufferDataSource.create []) dest
    simpa [create_buffer] using this
  · simp [elementAddress, create_buffer]
  · have := readAll_spec (BufferDataSource.create b) (c + 1) (Nat.succ_pos c)
      (b.length + extra) 0 (Nat.zero_le _) (by simp [create_buffer])
    simpa [create_buffer] using this

end AtomApiUrlLoader
